import Mathlib

/-!
# Verification of the joystick-to-movement logic of the horror-game component

Shallow embedding of the movement integrator (`Player.useFrame`) and the
virtual-joystick input mapper (`VirtualJoystick.updatePosition` /
`handleStart` / `handleMove` / `handleEnd`) found in the two source files
`src/unnamed/part_000` and `src/src/components/HorrorGame.tsx`.

Numbers are modelled by real numbers.  The THREE.js vector/quaternion
operations used by the source (`Vector3.applyQuaternion`, `Vector3.length`,
`Vector3.normalize`, `Vector3.addScaledVector`, `Vector3.multiplyScalar`,
`Vector3.divideScalar`) are embedded with the semantics of the THREE.js
library: in particular `normalize` divides by `length() || 1`, so a
zero-length vector normalizes to itself rather than producing NaN.
-/

noncomputable section

namespace Game

/-- 3D vector with real components, modelling THREE.Vector3. -/
@[ext] structure Vec3 where
  x : ℝ
  y : ℝ
  z : ℝ

/-- 2D vector, modelling the { x, y } pairs used for the joystick knob
position and the emitted move vector. -/
@[ext] structure Vec2 where
  x : ℝ
  y : ℝ

/-- Quaternion (x, y, z, w), modelling THREE.Quaternion (the camera
orientation). -/
@[ext] structure Quat where
  x : ℝ
  y : ℝ
  z : ℝ
  w : ℝ

namespace Vec3

/-- THREE.Vector3.applyQuaternion: t = 2 * cross(q.xyz, v);
result = v + q.w * t + cross(q.xyz, t). -/
def applyQuaternion (v : Vec3) (q : Quat) : Vec3 :=
  let tx := 2 * (q.y * v.z - q.z * v.y)
  let ty := 2 * (q.z * v.x - q.x * v.z)
  let tz := 2 * (q.x * v.y - q.y * v.x)
  { x := v.x + q.w * tx + q.y * tz - q.z * ty
    y := v.y + q.w * ty + q.z * tx - q.x * tz
    z := v.z + q.w * tz + q.x * ty - q.y * tx }

/-- THREE.Vector3.length: sqrt(x*x + y*y + z*z). -/
def length (v : Vec3) : ℝ :=
  Real.sqrt (v.x * v.x + v.y * v.y + v.z * v.z)

/-- THREE.Vector3.multiplyScalar. -/
def multiplyScalar (v : Vec3) (s : ℝ) : Vec3 :=
  { x := v.x * s, y := v.y * s, z := v.z * s }

/-- THREE.Vector3.divideScalar: multiplyScalar(1 / scalar). -/
def divideScalar (v : Vec3) (s : ℝ) : Vec3 :=
  v.multiplyScalar (1 / s)

/-- THREE.Vector3.normalize: divideScalar(length() || 1).  In JavaScript
`length() || 1` yields 1 when the length is 0, so the zero vector is left
unchanged instead of producing NaN components. -/
def normalize (v : Vec3) : Vec3 :=
  v.divideScalar (if v.length = 0 then 1 else v.length)

/-- THREE.Vector3.addScaledVector: this += v * s componentwise. -/
def addScaledVector (v w : Vec3) (s : ℝ) : Vec3 :=
  { x := v.x + w.x * s, y := v.y + w.y * s, z := v.z + w.z * s }

/-- Plain vector addition (used only to state specification properties). -/
def add (v w : Vec3) : Vec3 :=
  { x := v.x + w.x, y := v.y + w.y, z := v.z + w.z }

/-- Plain vector subtraction (used only to state specification properties). -/
def sub (v w : Vec3) : Vec3 :=
  { x := v.x - w.x, y := v.y - w.y, z := v.z - w.z }

/-- Plain scalar multiple (used only to state specification properties). -/
def smul (s : ℝ) (v : Vec3) : Vec3 :=
  { x := s * v.x, y := s * v.y, z := s * v.z }

/-- The zero vector. -/
def zero : Vec3 := { x := 0, y := 0, z := 0 }

end Vec3

/-- Rotation of a vector by 90 degrees about the vertical (y) axis, one
orientation: (x, y, z) maps to (-z, y, x). -/
def rotY90cw (v : Vec3) : Vec3 :=
  { x := -v.z, y := v.y, z := v.x }

/-- Rotation of a vector by 90 degrees about the vertical (y) axis, the
other orientation: (x, y, z) maps to (z, y, -x). -/
def rotY90ccw (v : Vec3) : Vec3 :=
  { x := v.z, y := v.y, z := -v.x }

/-! ## The movement integrator of src/unnamed/part_000 (Player.useFrame) -/

namespace Part000

/-- Lines 19-22 of part_000: forward = (0,0,-1) applyQuaternion camera,
then forward.y = 0 (the state just before the final normalize). -/
def fwdProj (q : Quat) : Vec3 :=
  let f := Vec3.applyQuaternion { x := 0, y := 0, z := -1 } q
  { x := f.x, y := 0, z := f.z }

/-- Lines 24-26 of part_000: right = (1,0,0) applyQuaternion camera, then
right.y = 0 (the state just before the final normalize). -/
def rightProj (q : Quat) : Vec3 :=
  let r := Vec3.applyQuaternion { x := 1, y := 0, z := 0 } q
  { x := r.x, y := 0, z := r.z }

/-- The normalized horizontal forward basis vector of the integrator. -/
def forwardVec (q : Quat) : Vec3 :=
  (fwdProj q).normalize

/-- The normalized horizontal right basis vector of the integrator. -/
def rightVec (q : Quat) : Vec3 :=
  (rightProj q).normalize

/-- One step of the per-frame position update of Player.useFrame
(part_000 lines 16-30): moveSpeed = 3 * delta;
position += forward * (moveDirection.y * moveSpeed);
position += right * (moveDirection.x * moveSpeed). -/
def useFrameStep (q : Quat) (moveDirection : Vec2) (delta : ℝ) (pos : Vec3) : Vec3 :=
  let moveSpeed := 3 * delta
  let p1 := pos.addScaledVector (forwardVec q) (moveDirection.y * moveSpeed)
  p1.addScaledVector (rightVec q) (moveDirection.x * moveSpeed)

/-- The initial player position (part_000 line 14): new THREE.Vector3(0, 1.6, 10). -/
def initialPosition : Vec3 := { x := 0, y := 1.6, z := 10 }

/-- Running a list of frames, each with its own camera orientation, move
vector and elapsed time. -/
def runFrames (frames : List (Quat × Vec2 × ℝ)) (pos : Vec3) : Vec3 :=
  frames.foldl (fun p f => useFrameStep f.1 f.2.1 f.2.2 p) pos

end Part000

/-! ## The joystick input mapper of src/unnamed/part_000 (VirtualJoystick) -/

/-- The bounding client rect of the joystick element, as read by
getBoundingClientRect(). -/
structure Rect where
  left : ℝ
  top : ℝ
  width : ℝ
  height : ℝ

namespace Part000

/-- VirtualJoystick.updatePosition (part_000 lines 146-166).  Returns the
pair (knob position passed to setPosition, move vector passed to onMove).
The null-ref early return is dropped: the element rect is an input. -/
def updatePosition (r : Rect) (clientX clientY : ℝ) : Vec2 × Vec2 :=
  let centerX := r.left + r.width / 2
  let centerY := r.top + r.height / 2
  let dx := clientX - centerX
  let dy := clientY - centerY
  let distance := Real.sqrt (dx * dx + dy * dy)
  let maxDistance : ℝ := 40
  let dx2 := if distance > maxDistance then dx / distance * maxDistance else dx
  let dy2 := if distance > maxDistance then dy / distance * maxDistance else dy
  (⟨dx2, dy2⟩, ⟨dx2 / maxDistance, -dy2 / maxDistance⟩)

/-- The React state of the VirtualJoystick component together with the last
value it emitted through onMove (the moveDirection held by HorrorGame). -/
structure JoyState where
  isDragging : Bool
  position : Vec2
  moveVector : Vec2

/-- VirtualJoystick.handleStart (lines 129-132): setIsDragging(true) then
updatePosition(clientX, clientY). -/
def handleStart (r : Rect) (_s : JoyState) (clientX clientY : ℝ) : JoyState :=
  let u := updatePosition r clientX clientY
  { isDragging := true, position := u.1, moveVector := u.2 }

/-- VirtualJoystick.handleMove (lines 134-138): updatePosition only when
isDragging. -/
def handleMove (r : Rect) (s : JoyState) (clientX clientY : ℝ) : JoyState :=
  if s.isDragging then
    let u := updatePosition r clientX clientY
    { isDragging := s.isDragging, position := u.1, moveVector := u.2 }
  else s

/-- VirtualJoystick.handleEnd (lines 140-144): setIsDragging(false);
setPosition({x:0,y:0}); onMove(0, 0). -/
def handleEnd (_s : JoyState) : JoyState :=
  { isDragging := false, position := ⟨0, 0⟩, moveVector := ⟨0, 0⟩ }

/-- Pointer/touch events bound on the joystick element (lines 172-178):
touchstart and mousedown fire handleStart, touchmove and mousemove fire
handleMove, touchend, mouseup and mouseleave fire handleEnd. -/
inductive JoyEvent where
  | press (clientX clientY : ℝ)
  | move (clientX clientY : ℝ)
  | touchEnd
  | mouseUp
  | mouseLeave

/-- One transition of the joystick component, dispatching an incoming
event to its handler exactly as the JSX event bindings do. -/
def joyStep (r : Rect) (s : JoyState) (e : JoyEvent) : JoyState :=
  match e with
  | .press cx cy => handleStart r s cx cy
  | .move cx cy => handleMove r s cx cy
  | .touchEnd => handleEnd s
  | .mouseUp => handleEnd s
  | .mouseLeave => handleEnd s

end Part000

/-! ## The same component as found in src/src/components/HorrorGame.tsx

The tsx file carries the player position and rotation as props of Player
(HorrorGame.tsx lines 14-44); its rotation prop is only copied onto the
camera and never enters the position update. -/

namespace SrcTsx

/-- HorrorGame.tsx lines 21-24: forward before the final normalize. -/
def fwdProj (q : Quat) : Vec3 :=
  let f := Vec3.applyQuaternion { x := 0, y := 0, z := -1 } q
  { x := f.x, y := 0, z := f.z }

/-- HorrorGame.tsx lines 26-29: right before the final normalize. -/
def rightProj (q : Quat) : Vec3 :=
  let r := Vec3.applyQuaternion { x := 1, y := 0, z := 0 } q
  { x := r.x, y := 0, z := r.z }

/-- The normalized horizontal forward basis vector (HorrorGame.tsx line 24). -/
def forwardVec (q : Quat) : Vec3 :=
  (fwdProj q).normalize

/-- The normalized horizontal right basis vector (HorrorGame.tsx line 29). -/
def rightVec (q : Quat) : Vec3 :=
  (rightProj q).normalize

/-- One step of the position update of Player.useFrame in HorrorGame.tsx
(lines 18-32).  The rotation prop (copied to the camera on line 35) does
not take part in the position update and is passed through unused. -/
def useFrameStep (q : Quat) (rotation : Vec3) (moveDirection : Vec2) (delta : ℝ)
    (pos : Vec3) : Vec3 :=
  let _ := rotation
  let moveSpeed := 3 * delta
  let p1 := pos.addScaledVector (forwardVec q) (moveDirection.y * moveSpeed)
  p1.addScaledVector (rightVec q) (moveDirection.x * moveSpeed)

/-- The initial player position (HorrorGame.tsx line 119):
useRef(new THREE.Vector3(0, 1.6, 10)). -/
def initialPosition : Vec3 := { x := 0, y := 1.6, z := 10 }

/-- VirtualJoystick.updatePosition of HorrorGame.tsx (lines 162-182),
identical in text to the one of part_000. -/
def updatePosition (r : Rect) (clientX clientY : ℝ) : Vec2 × Vec2 :=
  let centerX := r.left + r.width / 2
  let centerY := r.top + r.height / 2
  let dx := clientX - centerX
  let dy := clientY - centerY
  let distance := Real.sqrt (dx * dx + dy * dy)
  let maxDistance : ℝ := 40
  let dx2 := if distance > maxDistance then dx / distance * maxDistance else dx
  let dy2 := if distance > maxDistance then dy / distance * maxDistance else dy
  (⟨dx2, dy2⟩, ⟨dx2 / maxDistance, -dy2 / maxDistance⟩)

end SrcTsx

/-! ## Checked semantics: every division and square root guarded

In JavaScript a division by zero produces Infinity or NaN and a square
root of a negative number produces NaN.  The checked evaluator below
returns none exactly where such a value would be created, so proving it
total shows the code never manufactures NaN/Infinity. -/

/-- Division that fails (would produce Infinity/NaN in JavaScript) on a
zero denominator. -/
def cdiv (a b : ℝ) : Option ℝ :=
  if b = 0 then none else some (a / b)

/-- Square root that fails (would produce NaN in JavaScript) on a negative
argument. -/
def csqrt (a : ℝ) : Option ℝ :=
  if a < 0 then none else some (Real.sqrt a)

/-- Checked THREE.Vector3.normalize: divideScalar(length() || 1) with the
division through cdiv and the length through csqrt. -/
def normalizeChecked (v : Vec3) : Option Vec3 := do
  let l ← csqrt (v.x * v.x + v.y * v.y + v.z * v.z)
  let d := if l = 0 then 1 else l
  let inv ← cdiv 1 d
  pure (v.multiplyScalar inv)

/-- Checked VirtualJoystick.updatePosition: every division and the square
root guarded. -/
def updatePositionChecked (r : Rect) (clientX clientY : ℝ) : Option (Vec2 × Vec2) := do
  let centerX := r.left + r.width / 2
  let centerY := r.top + r.height / 2
  let dx := clientX - centerX
  let dy := clientY - centerY
  let distance ← csqrt (dx * dx + dy * dy)
  let maxDistance : ℝ := 40
  let dx2 ← if distance > maxDistance then
      (do let t ← cdiv dx distance; pure (t * maxDistance)) else pure dx
  let dy2 ← if distance > maxDistance then
      (do let t ← cdiv dy distance; pure (t * maxDistance)) else pure dy
  let mx ← cdiv dx2 maxDistance
  let my ← cdiv dy2 maxDistance
  pure (⟨dx2, dy2⟩, ⟨mx, -my⟩)

/-- Checked movement-integrator step: the two normalizations guarded. -/
def useFrameStepChecked (q : Quat) (moveDirection : Vec2) (delta : ℝ)
    (pos : Vec3) : Option Vec3 := do
  let moveSpeed := 3 * delta
  let forward ← normalizeChecked (Part000.fwdProj q)
  let right ← normalizeChecked (Part000.rightProj q)
  let p1 := pos.addScaledVector forward (moveDirection.y * moveSpeed)
  pure (p1.addScaledVector right (moveDirection.x * moveSpeed))

/-! ## Helper lemmas -/

theorem Vec3.length_nonneg (v : Vec3) : 0 ≤ v.length :=
  Real.sqrt_nonneg _

theorem Vec3.normalize_of_pos (v : Vec3)
    (h : 0 < v.x * v.x + v.y * v.y + v.z * v.z) :
    v.normalize =
      { x := v.x * (1 / Real.sqrt (v.x * v.x + v.y * v.y + v.z * v.z))
        y := v.y * (1 / Real.sqrt (v.x * v.x + v.y * v.y + v.z * v.z))
        z := v.z * (1 / Real.sqrt (v.x * v.x + v.y * v.y + v.z * v.z)) } := by
  have hL : Real.sqrt (v.x * v.x + v.y * v.y + v.z * v.z) ≠ 0 :=
    ne_of_gt (Real.sqrt_pos.mpr h)
  simp only [Vec3.normalize, Vec3.divideScalar, Vec3.multiplyScalar, Vec3.length,
    if_neg hL]

theorem Vec3.sum_sq_pos_of_ne_zero (v : Vec3) (h : v ≠ Vec3.zero) :
    0 < v.x * v.x + v.y * v.y + v.z * v.z := by
  rcases lt_or_eq_of_le
    (add_nonneg (add_nonneg (mul_self_nonneg v.x) (mul_self_nonneg v.y))
      (mul_self_nonneg v.z))
    with hlt | heq
  · exact hlt
  · exfalso
    apply h
    have hx : v.x = 0 := by nlinarith [sq_nonneg v.x, sq_nonneg v.y, sq_nonneg v.z]
    have hy : v.y = 0 := by nlinarith [sq_nonneg v.x, sq_nonneg v.y, sq_nonneg v.z]
    have hz : v.z = 0 := by nlinarith [sq_nonneg v.x, sq_nonneg v.y, sq_nonneg v.z]
    exact Vec3.ext hx hy hz

theorem Vec3.length_normalize_of_ne_zero (v : Vec3) (h : v ≠ Vec3.zero) :
    v.normalize.length = 1 := by
  have hs : 0 < v.x * v.x + v.y * v.y + v.z * v.z := v.sum_sq_pos_of_ne_zero h
  have hL : 0 < Real.sqrt (v.x * v.x + v.y * v.y + v.z * v.z) := Real.sqrt_pos.mpr hs
  rw [Vec3.normalize_of_pos v hs]
  simp only [Vec3.length]
  have hmul : Real.sqrt (v.x * v.x + v.y * v.y + v.z * v.z) *
      Real.sqrt (v.x * v.x + v.y * v.y + v.z * v.z) =
      v.x * v.x + v.y * v.y + v.z * v.z :=
    Real.mul_self_sqrt (le_of_lt hs)
  have hexp : v.x * (1 / Real.sqrt (v.x * v.x + v.y * v.y + v.z * v.z)) *
      (v.x * (1 / Real.sqrt (v.x * v.x + v.y * v.y + v.z * v.z))) +
      v.y * (1 / Real.sqrt (v.x * v.x + v.y * v.y + v.z * v.z)) *
      (v.y * (1 / Real.sqrt (v.x * v.x + v.y * v.y + v.z * v.z))) +
      v.z * (1 / Real.sqrt (v.x * v.x + v.y * v.y + v.z * v.z)) *
      (v.z * (1 / Real.sqrt (v.x * v.x + v.y * v.y + v.z * v.z))) = 1 := by
    field_simp
  rw [hexp, Real.sqrt_one]

theorem Part000.runFrames_nil (pos : Vec3) : Part000.runFrames [] pos = pos := rfl

theorem Part000.runFrames_cons (f : Quat × Vec2 × ℝ) (fs : List (Quat × Vec2 × ℝ))
    (pos : Vec3) :
    Part000.runFrames (f :: fs) pos =
      Part000.runFrames fs (Part000.useFrameStep f.1 f.2.1 f.2.2 pos) := rfl

theorem Part000.useFrameStep_y (q : Quat) (v : Vec2) (dt : ℝ) (pos : Vec3) :
    (Part000.useFrameStep q v dt pos).y = pos.y := by
  have hf : (Part000.forwardVec q).y = 0 := by
    simp [Part000.forwardVec, Part000.fwdProj, Vec3.normalize, Vec3.divideScalar,
      Vec3.multiplyScalar]
  have hr : (Part000.rightVec q).y = 0 := by
    simp [Part000.rightVec, Part000.rightProj, Vec3.normalize, Vec3.divideScalar,
      Vec3.multiplyScalar]
  simp [Part000.useFrameStep, Vec3.addScaledVector, hf, hr]

theorem Part000.runFrames_y (fs : List (Quat × Vec2 × ℝ)) (pos : Vec3) :
    (Part000.runFrames fs pos).y = pos.y := by
  induction fs generalizing pos with
  | nil => rfl
  | cons f fs ih =>
      rw [Part000.runFrames_cons, ih, Part000.useFrameStep_y]

theorem Vec3.length_smul_of_nonneg (a : ℝ) (v : Vec3) (ha : 0 ≤ a) :
    (Vec3.smul a v).length = a * v.length := by
  simp only [Vec3.length, Vec3.smul]
  have h : a * v.x * (a * v.x) + a * v.y * (a * v.y) + a * v.z * (a * v.z) =
      (a * a) * (v.x * v.x + v.y * v.y + v.z * v.z) := by ring
  rw [h, Real.sqrt_mul (mul_self_nonneg a), Real.sqrt_mul_self ha]

/-! ## Claim theorems -/

/-- Claim C1: one integrator step produces
new position = old position + forward * (y * speed * dt) + right * (x * speed * dt)
with speed = 3 and with forward and right the horizontal-plane-projected,
normalized camera basis vectors; with MoveVector (0,1) and dt = 1 the
position advances by exactly 3 along forward (a displacement of length
exactly speed = 3 whenever the horizontal projection is nonzero) with the
right-hand term contributing nothing. -/
theorem integrator_step_formula (q : Quat) (v : Vec2) (dt : ℝ) (p : Vec3) :
    Part000.useFrameStep q v dt p =
      Vec3.add (Vec3.add p (Vec3.smul (v.y * (3 * dt)) (Part000.forwardVec q)))
        (Vec3.smul (v.x * (3 * dt)) (Part000.rightVec q)) ∧
    Part000.useFrameStep q ⟨0, 1⟩ 1 p =
      Vec3.add p (Vec3.smul 3 (Part000.forwardVec q)) ∧
    (Part000.fwdProj q ≠ Vec3.zero →
      Vec3.length (Vec3.sub (Part000.useFrameStep q ⟨0, 1⟩ 1 p) p) = 3) := by
  refine ⟨?_, ?_, ?_⟩
  · ext <;>
      simp [Part000.useFrameStep, Vec3.addScaledVector, Vec3.add, Vec3.smul] <;> ring
  · ext <;>
      simp [Part000.useFrameStep, Vec3.addScaledVector, Vec3.add, Vec3.smul] <;> ring
  · intro h
    have h1 : (Part000.forwardVec q).length = 1 :=
      Vec3.length_normalize_of_ne_zero _ h
    have hsub : Vec3.sub (Part000.useFrameStep q ⟨0, 1⟩ 1 p) p =
        Vec3.smul 3 (Part000.forwardVec q) := by
      ext <;>
        simp [Part000.useFrameStep, Vec3.addScaledVector, Vec3.sub, Vec3.smul] <;> ring
    rw [hsub, Vec3.length_smul_of_nonneg 3 _ (by norm_num), h1]
    norm_num

/-- Witness for claim C1 at the identity camera orientation. -/
theorem integrator_step_formula_witness :
    Part000.fwdProj ⟨0, 0, 0, 1⟩ ≠ Vec3.zero ∧
    Vec3.length (Vec3.sub
      (Part000.useFrameStep ⟨0, 0, 0, 1⟩ ⟨0, 1⟩ 1 ⟨0, 0, 0⟩) ⟨0, 0, 0⟩) = 3 := by
  have h : Part000.fwdProj ⟨0, 0, 0, 1⟩ ≠ Vec3.zero := by
    simp [Part000.fwdProj, Vec3.applyQuaternion, Vec3.zero, Vec3.ext_iff]
  exact ⟨h, (integrator_step_formula ⟨0, 0, 0, 1⟩ ⟨0, 1⟩ 1 ⟨0, 0, 0⟩).2.2 h⟩

/-- Claim C2: the MoveVector emitted by the mapper always has Euclidean
magnitude at most 1 (displacement beyond the radius 40 is scaled back to
the radius before normalizing), and a drag from the control center by
(80, 0) pixels maps to MoveVector (1, 0). -/
theorem moveVector_magnitude_le_one (r : Rect) (cx cy L T W H : ℝ) :
    Real.sqrt (((Part000.updatePosition r cx cy).2).x ^ 2 +
      ((Part000.updatePosition r cx cy).2).y ^ 2) ≤ 1 ∧
    (Part000.updatePosition ⟨L, T, W, H⟩ (L + W / 2 + 80) (T + H / 2)).2 =
      (⟨1, 0⟩ : Vec2) := by
  constructor
  · have hsum : ((Part000.updatePosition r cx cy).2).x ^ 2 +
        ((Part000.updatePosition r cx cy).2).y ^ 2 ≤ 1 := by
      simp only [Part000.updatePosition]
      set dx := cx - (r.left + r.width / 2) with hdx
      set dy := cy - (r.top + r.height / 2) with hdy
      set s := Real.sqrt (dx * dx + dy * dy) with hs
      have hs0 : 0 ≤ dx * dx + dy * dy :=
        add_nonneg (mul_self_nonneg _) (mul_self_nonneg _)
      have hms : s * s = dx * dx + dy * dy := Real.mul_self_sqrt hs0
      by_cases h : s > 40
      · have hne : s ≠ 0 := ne_of_gt (lt_trans (by norm_num) h)
        have hsumpos : 0 < dx * dx + dy * dy := by nlinarith
        simp only [if_pos h]
        have key : (dx / s * 40 / 40) ^ 2 + (-(dy / s * 40) / 40) ^ 2 =
            (dx * dx + dy * dy) / (s * s) := by
          field_simp
          ring
        rw [key, hms, div_self (ne_of_gt hsumpos)]
      · have hle : s ≤ 40 := not_lt.mp h
        simp only [if_neg h]
        have key : (dx / 40) ^ 2 + (-dy / 40) ^ 2 =
            (dx * dx + dy * dy) / 1600 := by ring
        rw [key, div_le_one (by norm_num : (0:ℝ) < 1600)]
        nlinarith [Real.sqrt_nonneg (dx * dx + dy * dy)]
    calc Real.sqrt (((Part000.updatePosition r cx cy).2).x ^ 2 +
          ((Part000.updatePosition r cx cy).2).y ^ 2) ≤ Real.sqrt 1 :=
            Real.sqrt_le_sqrt hsum
      _ = 1 := Real.sqrt_one
  · have h80 : Real.sqrt 6400 = 80 := by
      rw [show (6400:ℝ) = 80 ^ 2 by norm_num,
        Real.sqrt_sq (by norm_num : (0:ℝ) ≤ 80)]
    simp only [Part000.updatePosition]
    rw [show L + W / 2 + 80 - (L + W / 2) = (80:ℝ) by ring,
      show T + H / 2 - (T + H / 2) = (0:ℝ) by ring]
    norm_num
    rw [h80]
    rw [if_pos (by norm_num : (80:ℝ) > 40)]
    norm_num

/-- Claim C3: the emitted MoveVector is always a positive scalar multiple
of (dx, -dy) where (dx, dy) is the raw displacement from the control
center: the mapper never rotates the input, the only axis change being the
vertical inversion, and clamping preserves direction. -/
theorem moveVector_direction_preserved (r : Rect) (cx cy : ℝ) :
    ∃ c : ℝ, 0 < c ∧
      ((Part000.updatePosition r cx cy).2).x = c * (cx - (r.left + r.width / 2)) ∧
      ((Part000.updatePosition r cx cy).2).y = c * (-(cy - (r.top + r.height / 2))) := by
  simp only [Part000.updatePosition]
  set dx := cx - (r.left + r.width / 2) with hdx
  set dy := cy - (r.top + r.height / 2) with hdy
  set s := Real.sqrt (dx * dx + dy * dy) with hs
  by_cases h : s > 40
  · have hpos : 0 < s := lt_trans (by norm_num) h
    have hne : s ≠ 0 := ne_of_gt hpos
    refine ⟨1 / s, by positivity, ?_, ?_⟩
    · simp only [if_pos h]
      field_simp
      ring
    · simp only [if_pos h]
      field_simp
      ring
  · refine ⟨1 / 40, by norm_num, ?_, ?_⟩
    · simp only [if_neg h]
      ring
    · simp only [if_neg h]
      ring

/-- Claim C4: for every prior MoveVector value and every prior dragging
state, a release event (touch end, mouse up, or the pointer leaving the
control) immediately sets MoveVector to (0,0), resets the knob position to
(0,0) and clears the dragging flag, with no intermediate values. -/
theorem release_resets_joystick (r : Rect) (s : Part000.JoyState) :
    Part000.joyStep r s .touchEnd =
      { isDragging := false, position := ⟨0, 0⟩, moveVector := ⟨0, 0⟩ } ∧
    Part000.joyStep r s .mouseUp =
      { isDragging := false, position := ⟨0, 0⟩, moveVector := ⟨0, 0⟩ } ∧
    Part000.joyStep r s .mouseLeave =
      { isDragging := false, position := ⟨0, 0⟩, moveVector := ⟨0, 0⟩ } :=
  ⟨rfl, rfl, rfl⟩

/-- Claim C7: with MoveVector (0,0) an integrator step leaves the position
exactly unchanged, for every dt and every camera orientation, and hence the
position is unchanged across any number of consecutive frames. -/
theorem zero_moveVector_fixes_position :
    (∀ (q : Quat) (dt : ℝ) (pos : Vec3),
      Part000.useFrameStep q ⟨0, 0⟩ dt pos = pos) ∧
    (∀ (frames : List (Quat × ℝ)) (pos : Vec3),
      Part000.runFrames (frames.map (fun f => (f.1, (⟨0, 0⟩ : Vec2), f.2))) pos = pos) := by
  have hstep : ∀ (q : Quat) (dt : ℝ) (pos : Vec3),
      Part000.useFrameStep q ⟨0, 0⟩ dt pos = pos := by
    intro q dt pos
    ext <;> simp [Part000.useFrameStep, Vec3.addScaledVector]
  refine ⟨hstep, ?_⟩
  intro frames
  induction frames with
  | nil => intro pos; rfl
  | cons f fs ih =>
      intro pos
      rw [List.map_cons, Part000.runFrames_cons]
      rw [hstep]
      exact ih pos

/-- Claim C8: a press event sets the dragging flag, each of the three
release events clears it, and while not dragging a move event leaves the
whole joystick state (knob position and MoveVector) unchanged. -/
theorem joystick_state_machine (r : Rect) (s : Part000.JoyState) (cx cy : ℝ) :
    (Part000.joyStep r s (.press cx cy)).isDragging = true ∧
    (Part000.joyStep r s .touchEnd).isDragging = false ∧
    (Part000.joyStep r s .mouseUp).isDragging = false ∧
    (Part000.joyStep r s .mouseLeave).isDragging = false ∧
    (s.isDragging = false → Part000.joyStep r s (.move cx cy) = s) := by
  refine ⟨rfl, rfl, rfl, rfl, ?_⟩
  intro h
  simp [Part000.joyStep, Part000.handleMove, h]

/-- Witness for claim C8 at the idle state. -/
theorem joystick_state_machine_witness :
    (({ isDragging := false, position := ⟨0, 0⟩, moveVector := ⟨0, 0⟩ } :
        Part000.JoyState).isDragging = false) ∧
    Part000.joyStep ⟨0, 0, 0, 0⟩
        { isDragging := false, position := ⟨0, 0⟩, moveVector := ⟨0, 0⟩ }
        (.move 0 0) =
      { isDragging := false, position := ⟨0, 0⟩, moveVector := ⟨0, 0⟩ } :=
  ⟨rfl, (joystick_state_machine ⟨0, 0, 0, 0⟩
    { isDragging := false, position := ⟨0, 0⟩, moveVector := ⟨0, 0⟩ } 0 0).2.2.2.2 rfl⟩

/-- Claim C9: the two movement basis vectors always have zero vertical
component, an integrator step never changes the vertical coordinate of the
position, and starting from the initial position (0, 1.6, 10) the height
stays 1.6 across any sequence of frames. -/
theorem vertical_coordinate_invariant :
    (∀ q : Quat, (Part000.forwardVec q).y = 0 ∧ (Part000.rightVec q).y = 0) ∧
    (∀ (q : Quat) (v : Vec2) (dt : ℝ) (pos : Vec3),
      (Part000.useFrameStep q v dt pos).y = pos.y) ∧
    (∀ frames : List (Quat × Vec2 × ℝ),
      (Part000.runFrames frames Part000.initialPosition).y = 1.6) := by
  refine ⟨?_, Part000.useFrameStep_y, ?_⟩
  · intro q
    constructor
    · simp [Part000.forwardVec, Part000.fwdProj, Vec3.normalize, Vec3.divideScalar,
        Vec3.multiplyScalar]
    · simp [Part000.rightVec, Part000.rightProj, Vec3.normalize, Vec3.divideScalar,
        Vec3.multiplyScalar]
  · intro frames
    rw [Part000.runFrames_y]
    rfl

/-- Claim C10: the joystick mapper and the movement integrator of
src/unnamed/part_000 and of src/src/components/HorrorGame.tsx compute the
same MoveVector and the same position update on identical inputs, and start
from the same initial position. -/
theorem two_sources_equivalent (r : Rect) (cx cy : ℝ) (q : Quat) (rot : Vec3)
    (v : Vec2) (dt : ℝ) (p : Vec3) :
    Part000.updatePosition r cx cy = SrcTsx.updatePosition r cx cy ∧
    Part000.useFrameStep q v dt p = SrcTsx.useFrameStep q rot v dt p ∧
    Part000.initialPosition = SrcTsx.initialPosition :=
  ⟨rfl, rfl, rfl⟩

theorem normalizeChecked_eq (w : Vec3) : normalizeChecked w = some w.normalize := by
  have hs : ¬ (w.x * w.x + w.y * w.y + w.z * w.z < 0) :=
    not_lt.mpr (add_nonneg (add_nonneg (mul_self_nonneg _) (mul_self_nonneg _))
      (mul_self_nonneg _))
  have hd : (if Real.sqrt (w.x * w.x + w.y * w.y + w.z * w.z) = 0 then (1:ℝ)
      else Real.sqrt (w.x * w.x + w.y * w.y + w.z * w.z)) ≠ 0 := by
    split_ifs with h0
    · norm_num
    · exact h0
  simp only [normalizeChecked, csqrt, cdiv, if_neg hs, if_neg hd, Option.bind_eq_bind,
    Option.some_bind]
  simp [Vec3.normalize, Vec3.divideScalar, Vec3.length]

theorem updatePositionChecked_eq (r : Rect) (cx cy : ℝ) :
    updatePositionChecked r cx cy = some (Part000.updatePosition r cx cy) := by
  simp only [updatePositionChecked, Part000.updatePosition, csqrt, cdiv]
  set dx := cx - (r.left + r.width / 2) with hdx
  set dy := cy - (r.top + r.height / 2) with hdy
  have hs : ¬ (dx * dx + dy * dy < 0) :=
    not_lt.mpr (add_nonneg (mul_self_nonneg _) (mul_self_nonneg _))
  rw [if_neg hs]
  set s := Real.sqrt (dx * dx + dy * dy) with hsdef
  have h40 : (40:ℝ) ≠ 0 := by norm_num
  by_cases h : s > 40
  · have hne : s ≠ 0 := ne_of_gt (lt_trans (by norm_num) h)
    simp [h, hne, h40]
    field_simp
    ring
  · simp [h, h40]
    ring

theorem useFrameStepChecked_eq (q : Quat) (v : Vec2) (dt : ℝ) (p : Vec3) :
    useFrameStepChecked q v dt p = some (Part000.useFrameStep q v dt p) := by
  simp [useFrameStepChecked, normalizeChecked_eq, Part000.useFrameStep,
    Part000.forwardVec, Part000.rightVec]

/-- Claim C6: the mapper and the integrator are total on well-formed
numeric input: the checked evaluator, which fails wherever JavaScript
would create NaN or Infinity (division by zero, square root of a negative
number), always succeeds and returns exactly the unchecked result - also
when the camera looks straight up or down so the horizontal projection
normalized inside the integrator has zero length. -/
theorem mapper_and_integrator_total (r : Rect) (cx cy : ℝ) (q : Quat) (v : Vec2)
    (dt : ℝ) (p : Vec3) :
    updatePositionChecked r cx cy = some (Part000.updatePosition r cx cy) ∧
    useFrameStepChecked q v dt p = some (Part000.useFrameStep q v dt p) :=
  ⟨updatePositionChecked_eq r cx cy, useFrameStepChecked_eq q v dt p⟩

theorem plane_unit_orth (a b c d L : ℝ)
    (hab : 0 < a * a + b * b)
    (hL : L = Real.sqrt (a * a + 0 * 0 + b * b))
    (horth : a * c + b * d = 0)
    (hcd : c ^ 2 + d ^ 2 = 1) :
    (c = -(b * (1 / L)) ∧ d = a * (1 / L)) ∨
    (c = b * (1 / L) ∧ d = -(a * (1 / L))) := by
  have hargpos : 0 < a * a + 0 * 0 + b * b := by nlinarith
  have hLpos : 0 < L := hL ▸ Real.sqrt_pos.mpr hargpos
  have hLne : L ≠ 0 := ne_of_gt hLpos
  have hLL : L * L = a * a + 0 * 0 + b * b := by
    rw [hL]; exact Real.mul_self_sqrt (le_of_lt hargpos)
  have hc2 : c * (a * a + b * b) = -(b * (a * d - b * c)) := by
    linear_combination a * horth
  have hd2 : d * (a * a + b * b) = a * (a * d - b * c) := by
    linear_combination b * horth
  have hD2 : (a * d - b * c) ^ 2 = a * a + b * b := by
    linear_combination (a * a + b * b) * hcd - (a * c + b * d) * horth
  have h0 : (a * d - b * c - L) * (a * d - b * c + L) = 0 := by
    linear_combination hD2 - hLL
  rcases mul_eq_zero.mp h0 with h1 | h1
  · left
    have h1 : a * d - b * c = L := by linarith [sub_eq_zero.mp h1]
    constructor
    · have key : (c * L + b) * L = 0 := by
        linear_combination c * hLL + hc2 - b * h1
      have hcb : c * L + b = 0 := by
        rcases mul_eq_zero.mp key with hk | hk
        · exact hk
        · exact absurd hk hLne
      field_simp
      linarith
    · have key : (d * L - a) * L = 0 := by
        linear_combination d * hLL + hd2 + a * h1
      have hda : d * L - a = 0 := by
        rcases mul_eq_zero.mp key with hk | hk
        · exact hk
        · exact absurd hk hLne
      field_simp
      linarith
  · right
    have h1 : a * d - b * c = -L := by linarith
    constructor
    · have key : (c * L - b) * L = 0 := by
        linear_combination c * hLL + hc2 - b * h1
      have hcb : c * L - b = 0 := by
        rcases mul_eq_zero.mp key with hk | hk
        · exact hk
        · exact absurd hk hLne
      field_simp
      linarith
    · have key : (d * L + a) * L = 0 := by
        linear_combination d * hLL + hd2 + a * h1
      have hda : d * L + a = 0 := by
        rcases mul_eq_zero.mp key with hk | hk
        · exact hk
        · exact absurd hk hLne
      field_simp
      linarith

theorem fwdProj_eq (q : Quat) :
    Part000.fwdProj q =
      ⟨-(2 * (q.x * q.z + q.y * q.w)), 0, -1 + 2 * q.x ^ 2 + 2 * q.y ^ 2⟩ := by
  simp only [Part000.fwdProj, Vec3.applyQuaternion]
  refine Vec3.ext ?_ ?_ ?_ <;> dsimp <;> ring

theorem rightProj_eq (q : Quat) :
    Part000.rightProj q =
      ⟨1 - 2 * q.y ^ 2 - 2 * q.z ^ 2, 0, 2 * (q.x * q.z - q.y * q.w)⟩ := by
  simp only [Part000.rightProj, Vec3.applyQuaternion]
  refine Vec3.ext ?_ ?_ ?_ <;> dsimp <;> ring

/-- Claim C5 (amended): for every unit camera quaternion for which the
rotated right vector is horizontal (a roll-free orientation, which is the
only kind this camera ever takes) and whose horizontal projections are
nonzero, the right basis vector computed by the integrator equals the
forward basis vector rotated 90 degrees about the vertical axis, in one of
the two orientations of that rotation. -/
theorem rightVec_is_rotated_forwardVec (q : Quat)
    (hunit : q.x ^ 2 + q.y ^ 2 + q.z ^ 2 + q.w ^ 2 = 1)
    (hnoroll : (Vec3.applyQuaternion ⟨1, 0, 0⟩ q).y = 0)
    (hf : Part000.fwdProj q ≠ Vec3.zero)
    (_hr : Part000.rightProj q ≠ Vec3.zero) :
    Part000.rightVec q = rotY90cw (Part000.forwardVec q) ∨
    Part000.rightVec q = rotY90ccw (Part000.forwardVec q) := by
  obtain ⟨a, hadef⟩ : ∃ t : ℝ, t = -(2 * (q.x * q.z + q.y * q.w)) := ⟨_, rfl⟩
  obtain ⟨b, hbdef⟩ : ∃ t : ℝ, t = -1 + 2 * q.x ^ 2 + 2 * q.y ^ 2 := ⟨_, rfl⟩
  obtain ⟨c, hcdef⟩ : ∃ t : ℝ, t = 1 - 2 * q.y ^ 2 - 2 * q.z ^ 2 := ⟨_, rfl⟩
  obtain ⟨d, hddef⟩ : ∃ t : ℝ, t = 2 * (q.x * q.z - q.y * q.w) := ⟨_, rfl⟩
  have hry : q.x * q.y + q.z * q.w = 0 := by
    have h := hnoroll
    simp only [Vec3.applyQuaternion] at h
    linear_combination h / 2
  have hfp : Part000.fwdProj q = ⟨a, 0, b⟩ := by
    rw [hadef, hbdef]; exact fwdProj_eq q
  have hrp : Part000.rightProj q = ⟨c, 0, d⟩ := by
    rw [hcdef, hddef]; exact rightProj_eq q
  have horth : a * c + b * d = 0 := by
    rw [hadef, hbdef, hcdef, hddef]
    linear_combination (4 * q.x * q.z) * hunit -
      (4 * q.x * q.w - 4 * q.y * q.z) * hry
  have hcd : c ^ 2 + d ^ 2 = 1 := by
    rw [hcdef, hddef]
    linear_combination (4 * q.y ^ 2 + 4 * q.z ^ 2) * hunit -
      (4 * (q.x * q.y + q.z * q.w)) * hry
  have hab : 0 < a * a + b * b := by
    have hne : (⟨a, 0, b⟩ : Vec3) ≠ Vec3.zero := hfp ▸ hf
    have h5 := Vec3.sum_sq_pos_of_ne_zero ⟨a, 0, b⟩ hne
    dsimp at h5
    nlinarith [h5]
  have hFn : Part000.forwardVec q =
      ⟨a * (1 / Real.sqrt (a * a + 0 * 0 + b * b)),
       0 * (1 / Real.sqrt (a * a + 0 * 0 + b * b)),
       b * (1 / Real.sqrt (a * a + 0 * 0 + b * b))⟩ := by
    rw [Part000.forwardVec, hfp]
    exact Vec3.normalize_of_pos _ (by nlinarith [hab])
  have hrlen : Real.sqrt (c * c + 0 * 0 + d * d) = 1 := by
    rw [show c * c + 0 * 0 + d * d = c ^ 2 + d ^ 2 by ring, hcd, Real.sqrt_one]
  have hRn : Part000.rightVec q = ⟨c, 0, d⟩ := by
    rw [Part000.rightVec, hrp]
    simp only [Vec3.normalize, Vec3.length, Vec3.divideScalar, Vec3.multiplyScalar,
      hrlen]
    norm_num
  have hkey := plane_unit_orth a b c d
    (Real.sqrt (a * a + 0 * 0 + b * b)) hab rfl horth hcd
  rcases hkey with ⟨hc, hd⟩ | ⟨hc, hd⟩
  · left
    rw [hRn, hFn]
    simp only [rotY90cw]
    exact Vec3.ext hc (by ring) hd
  · right
    rw [hRn, hFn]
    simp only [rotY90ccw]
    exact Vec3.ext hc (by ring) hd

/-- Witness for amended claim C5 at the identity camera orientation. -/
theorem rightVec_is_rotated_forwardVec_witness :
    ((0:ℝ) ^ 2 + (0:ℝ) ^ 2 + (0:ℝ) ^ 2 + (1:ℝ) ^ 2 = 1) ∧
    (Vec3.applyQuaternion ⟨1, 0, 0⟩ ⟨0, 0, 0, 1⟩).y = 0 ∧
    Part000.fwdProj ⟨0, 0, 0, 1⟩ ≠ Vec3.zero ∧
    Part000.rightProj ⟨0, 0, 0, 1⟩ ≠ Vec3.zero ∧
    (Part000.rightVec ⟨0, 0, 0, 1⟩ = rotY90cw (Part000.forwardVec ⟨0, 0, 0, 1⟩) ∨
     Part000.rightVec ⟨0, 0, 0, 1⟩ = rotY90ccw (Part000.forwardVec ⟨0, 0, 0, 1⟩)) := by
  have h1 : ((0:ℝ) ^ 2 + (0:ℝ) ^ 2 + (0:ℝ) ^ 2 + (1:ℝ) ^ 2 = 1) := by norm_num
  have h2 : (Vec3.applyQuaternion ⟨1, 0, 0⟩ ⟨0, 0, 0, 1⟩).y = 0 := by
    simp [Vec3.applyQuaternion]
  have h3 : Part000.fwdProj ⟨0, 0, 0, 1⟩ ≠ Vec3.zero := by
    rw [fwdProj_eq]
    simp only [Vec3.zero, ne_eq, Vec3.mk.injEq, not_and]
    norm_num
  have h4 : Part000.rightProj ⟨0, 0, 0, 1⟩ ≠ Vec3.zero := by
    rw [rightProj_eq]
    simp only [Vec3.zero, ne_eq, Vec3.mk.injEq, not_and]
    norm_num
  exact ⟨h1, h2, h3, h4, rightVec_is_rotated_forwardVec ⟨0, 0, 0, 1⟩ h1 h2 h3 h4⟩

/-- Counterexample to claim C5 as stated: the unit camera quaternion
(2/3, 2/3, 1/3, 0) (an orientation with both pitch and roll) has nonzero
horizontal projections, yet its right basis vector is neither of the two
90-degree rotations of its forward basis vector about the vertical axis. -/
theorem rightVec_rotation_counterexample :
    ((2/3:ℝ) ^ 2 + (2/3:ℝ) ^ 2 + (1/3:ℝ) ^ 2 + (0:ℝ) ^ 2 = 1) ∧
    Part000.fwdProj ⟨2/3, 2/3, 1/3, 0⟩ ≠ Vec3.zero ∧
    Part000.rightProj ⟨2/3, 2/3, 1/3, 0⟩ ≠ Vec3.zero ∧
    ¬(Part000.rightVec ⟨2/3, 2/3, 1/3, 0⟩ =
        rotY90cw (Part000.forwardVec ⟨2/3, 2/3, 1/3, 0⟩) ∨
      Part000.rightVec ⟨2/3, 2/3, 1/3, 0⟩ =
        rotY90ccw (Part000.forwardVec ⟨2/3, 2/3, 1/3, 0⟩)) := by
  have hfpe : Part000.fwdProj ⟨2/3, 2/3, 1/3, 0⟩ = ⟨-(4/9), 0, 7/9⟩ := by
    rw [fwdProj_eq]
    norm_num
  have hrpe : Part000.rightProj ⟨2/3, 2/3, 1/3, 0⟩ = ⟨-(1/9), 0, 4/9⟩ := by
    rw [rightProj_eq]
    norm_num
  have hFe : Part000.forwardVec ⟨2/3, 2/3, 1/3, 0⟩ =
      ⟨-(4/9) * (1 / Real.sqrt (65/81)), 0 * (1 / Real.sqrt (65/81)),
       7/9 * (1 / Real.sqrt (65/81))⟩ := by
    rw [Part000.forwardVec, hfpe, Vec3.normalize_of_pos _ (by norm_num)]
    norm_num
  have hRe : Part000.rightVec ⟨2/3, 2/3, 1/3, 0⟩ =
      ⟨-(1/9) * (1 / Real.sqrt (17/81)), 0 * (1 / Real.sqrt (17/81)),
       4/9 * (1 / Real.sqrt (17/81))⟩ := by
    rw [Part000.rightVec, hrpe, Vec3.normalize_of_pos _ (by norm_num)]
    norm_num
  have hi17 : 0 < 1 / Real.sqrt (17/81 : ℝ) :=
    one_div_pos.mpr (Real.sqrt_pos.mpr (by norm_num))
  have hi65 : 0 < 1 / Real.sqrt (65/81 : ℝ) :=
    one_div_pos.mpr (Real.sqrt_pos.mpr (by norm_num))
  refine ⟨by norm_num, ?_, ?_, ?_⟩
  · rw [hfpe]
    simp only [Vec3.zero, ne_eq, Vec3.mk.injEq, not_and]
    norm_num
  · rw [hrpe]
    simp only [Vec3.zero, ne_eq, Vec3.mk.injEq, not_and]
    norm_num
  · intro hdisj
    rcases hdisj with h | h
    · rw [hRe, hFe] at h
      simp only [rotY90cw, Vec3.mk.injEq] at h
      obtain ⟨hx, hy, hz⟩ := h
      linarith [hz, hi17, hi65]
    · rw [hRe, hFe] at h
      simp only [rotY90ccw, Vec3.mk.injEq] at h
      obtain ⟨hx, hy, hz⟩ := h
      linarith [hx, hi17, hi65]

end Game

end
